import Mathlib

/-!
Verification of the chat orchestration core (RevMatch/chat-app).

Shallow embedding of:
  * `src/orchestrators/chat/messages/message_history.py` (`MongoMessageHistory`)
  * `src/orchestrators/chat/chat_bot.py` (`ChatBot`, `ChatBotBuilder` parts)
The persisted Mongo collection is modelled as an append-only list of stored
documents; the custom chat-message-history store subclass (not under `src/`)
is modelled from the spec where noted.
-/

set_option maxRecDepth 4000

/-- A document persisted in the message-history collection, as queried by
`ChatBot._aenter_chat_chain` / `_aexit_chat_chain` (fields `type`, `content`,
`conversation_id`, `createdAt`). -/
structure StoredMessage where
  type : String
  content : String
  conversation_id : String
  createdAt : Nat
deriving DecidableEq, Repr

/-- Modelled from the spec: the persisted history store is an append-only
ordered collection whose insert assigns a creation timestamp (`createdAt`);
the concrete store subclass used by `chat_message_history` is not under
`src/`. `clock` is the store-assigned timestamp counter. -/
structure MessageStore where
  docs : List StoredMessage
  clock : Nat
deriving DecidableEq, Repr

/-- An in-memory langchain-style message: a role tag and text content
(no timestamp; timestamps exist only on persisted documents). -/
structure LCMessage where
  type : String
  content : String
deriving DecidableEq, Repr

/-- Constructor `SystemMessage(prompt)` as used in `MongoMessageHistory.system`. -/
def SystemMessage (prompt : String) : LCMessage := ⟨"system", prompt⟩

/-- Constructor `HumanMessage(message_schema)` as used in `MongoMessageHistory.human`. -/
def HumanMessage (content : String) : LCMessage := ⟨"human", content⟩

/-- Constructor `AIMessage(message_schema)` as used in `MongoMessageHistory.ai`. -/
def AIMessage (content : String) : LCMessage := ⟨"ai", content⟩

/-- Modelled from the spec: inserting one message into the session-scoped
store appends a document stamped with the store clock. -/
def MessageStore.insertDoc (st : MessageStore) (sid : String) (m : LCMessage) :
    MessageStore :=
  { docs := st.docs ++ [⟨m.type, m.content, sid, st.clock⟩], clock := st.clock + 1 }

/-- State of `MongoMessageHistory` (src/orchestrators/chat/messages/message_history.py):
a session-scoped view on the message store. -/
structure MongoMessageHistory where
  store : MessageStore
  session_id : String
deriving DecidableEq, Repr

namespace MongoMessageHistory

/-- Method `add_messages`: add messages to store (in order). -/
def add_messages (h : MongoMessageHistory) (msgs : List LCMessage) :
    MongoMessageHistory :=
  { h with store := msgs.foldl (fun st m => st.insertDoc h.session_id m) h.store }

/-- Property `messages`: the session's documents, in insertion order,
deserialized back to role/content messages. -/
def messages (h : MongoMessageHistory) : List LCMessage :=
  (h.store.docs.filter (fun d => d.conversation_id == h.session_id)).map
    (fun d => ⟨d.type, d.content⟩)

/-- Property `has_no_messages`: `not self.messages`. -/
def has_no_messages (h : MongoMessageHistory) : Bool :=
  h.messages.isEmpty

/-- Method `system(prompt)`: construct a `SystemMessage`, add it, return it. -/
def system (h : MongoMessageHistory) (prompt : String) :
    MongoMessageHistory × LCMessage :=
  let system_message := SystemMessage prompt
  (h.add_messages [system_message], system_message)

/-- Method `human(message_schema)`: construct a `HumanMessage`, add it, return it. -/
def human (h : MongoMessageHistory) (content : String) :
    MongoMessageHistory × LCMessage :=
  let human_message := HumanMessage content
  (h.add_messages [human_message], human_message)

/-- Method `ai(message_schema)`: construct an `AIMessage`, add it, return it. -/
def ai (h : MongoMessageHistory) (content : String) :
    MongoMessageHistory × LCMessage :=
  let ai_message := AIMessage content
  (h.add_messages [ai_message], ai_message)

/-- Method `bulk_add(messages)`: add all messages, return `True`. -/
def bulk_add (h : MongoMessageHistory) (msgs : List LCMessage) :
    MongoMessageHistory × Bool :=
  (h.add_messages msgs, true)

end MongoMessageHistory

/-- Query `collection.find_one({'type': 'system', 'content': ..., 'conversation_id': ...})`
(no sort: first match in natural, i.e. insertion, order), as issued by
`ChatBot._aenter_chat_chain`. -/
def collectionFindSystem (docs : List StoredMessage) (content sid : String) :
    Option StoredMessage :=
  docs.find? (fun d => d.type == "system" && d.content == content && d.conversation_id == sid)

/-- Hook `ChatBot._aenter_chat_chain`: if no system document with the configured
preprompt content exists for the session, add a system message via
`MessagePart.add_system_message` (= `MongoMessageHistory.system`). -/
def aenter_chat_chain (user_prompt : String) (h : MongoMessageHistory) :
    MongoMessageHistory :=
  match collectionFindSystem h.store.docs user_prompt h.session_id with
  | some _ => h
  | none => (h.system user_prompt).1

/-- Number of system-role documents stored for a session. -/
def countSystemFor (docs : List StoredMessage) (sid : String) : Nat :=
  (docs.filter (fun d => d.type == "system" && d.conversation_id == sid)).length

/-- Filter used by `ChatBot._aexit_chat_chain`'s `find_one`:
`{'type': {'$in': ['ai', 'AIMessageChunk']}, 'conversation_id': sid}`. -/
def assistantFilter (sid : String) (d : StoredMessage) : Bool :=
  (d.type == "ai" || d.type == "AIMessageChunk") && d.conversation_id == sid

/-- One step of scanning for the most-recent document: keep the candidate
with the greater `createdAt`, preferring the earlier-inserted one on ties. -/
def latestStep (acc : Option StoredMessage) (d : StoredMessage) :
    Option StoredMessage :=
  match acc with
  | none => some d
  | some b => if b.createdAt < d.createdAt then some d else some b

/-- Query `find_one(filter, sort=[("createdAt", DESCENDING)])`: among the matching
documents, the one with the greatest `createdAt`; ties broken by insertion
order (first inserted wins). -/
def findLatestAssistant (docs : List StoredMessage) (sid : String) :
    Option StoredMessage :=
  (docs.filter (assistantFilter sid)).foldl latestStep none

/-- Modelled from the spec: `chat_message_history.add_summary` (store subclass
not under `src/`) persists the summary as an appended artifact associated with
the session's running summary, never replacing or mutating prior history. -/
def MessageStore.add_summary (st : MessageStore) (sid content : String) :
    MessageStore :=
  { docs := st.docs ++ [⟨"summary", content, sid, st.clock⟩], clock := st.clock + 1 }

/-- Hook `ChatBot._aexit_chat_chain`: if the session has an assistant message,
summarize the most recent one (by `createdAt` descending) through the
summarization chain (`summarizer` models the bound model call) and persist the
summary via `add_summary`. -/
def aexit_chat_chain (summarizer : String → String) (h : MongoMessageHistory) :
    MongoMessageHistory :=
  match findLatestAssistant h.store.docs h.session_id with
  | some ai_message =>
      { h with store := h.store.add_summary h.session_id (summarizer ai_message.content) }
  | none => h

/-- A retrieved vector-store document (only its presence matters to the gate). -/
structure VectorDoc where
  page_content : String
deriving DecidableEq, Repr

/-- Errors of the similarity-search backend. Modelled from the spec: the
vector store (`asimilarity_search`, not under `src/`) fails with
`BackendUnavailable` when the search backend cannot be reached. -/
inductive BackendErr where
  | backendUnavailable
deriving DecidableEq, Repr

/-- The two chains `ChatBot.astream` can build. -/
inductive Chain where
  | grounded
  | direct
deriving DecidableEq, Repr

/-- Gate `ChatBotBuilder.VectorPart.aavailable_vectors`: await the similarity
search (an exception from the backend propagates — there is no handler),
count the returned vectors, return `count > 0`. -/
def aavailable_vectors (searchResult : Except BackendErr (List VectorDoc)) :
    Except BackendErr Bool :=
  match searchResult with
  | .error e => .error e
  | .ok vectors =>
      let count := vectors.length
      .ok (decide (count > 0))

/-- Chain selection in `ChatBot.astream`:
`rag_chain = await aavailable_vectors(message)` (exceptions propagate, there
is no fallback handler), then `rag_astream` if truthy else `chat_astream`. -/
def astream_select_chain (searchResult : Except BackendErr (List VectorDoc)) :
    Except BackendErr Chain :=
  match aavailable_vectors searchResult with
  | .error e => .error e
  | .ok rag_chain => .ok (if rag_chain then .grounded else .direct)

/-- The stop token hardcoded in `rag_astream` and `chat_astream`:
`"<|eot_id|>"`. -/
def stopToken : List Char := ['<', '|', 'e', 'o', 't', '_', 'i', 'd', '|', '>']

/-- Fuel-indexed core of Python's `s.replace(tok, "")`: scan left to right,
delete each leftmost non-overlapping occurrence of `tok`, continue after it.
The fuel bounds the number of scanning steps; `pyReplaceDel` supplies
`s.length`, which suffices. -/
def pyReplaceAux (tok : List Char) : Nat → List Char → List Char
  | _, [] => []
  | 0, s => s
  | fuel + 1, c :: rest =>
      if tok ≠ [] ∧ tok.isPrefixOf (c :: rest) then
        pyReplaceAux tok fuel (rest.drop (tok.length - 1))
      else
        c :: pyReplaceAux tok fuel rest

/-- Python `s_content.replace(stop_token, "")` (for the non-empty stop token):
removes the leftmost non-overlapping occurrences of `tok` in one pass. -/
def pyReplaceDel (tok s : List Char) : List Char :=
  pyReplaceAux tok s.length s

/-- Python's substring test `tok in s`. -/
def containsTok (tok : List Char) : List Char → Bool
  | [] => tok.isEmpty
  | c :: rest => tok.isPrefixOf (c :: rest) || containsTok tok rest

/-- The per-fragment body of `chat_astream.llm_astream`: strip the stop token
from the fragment if present, then yield it. -/
def chat_stream_step (s_content : List Char) : List Char :=
  if containsTok stopToken s_content then pyReplaceDel stopToken s_content else s_content

/-- The fragment stream produced by `chat_astream.llm_astream` (direct chain):
one output fragment per input fragment, stop token stripped. -/
def chat_llm_astream : List (List Char) → List (List Char)
  | [] => []
  | s :: rest => chat_stream_step s :: chat_llm_astream rest

/-- A chunk streamed by the retrieval chain: it may or may not carry an
`'answer'` field. -/
structure RagChunk where
  answer : Option (List Char)
deriving DecidableEq, Repr

/-- The fragment stream produced by `rag_astream.llm_astream` (grounded
chain): a fragment is yielded only when the chunk has an `'answer'` field
(`if 'answer' in s`), with the stop token stripped from it. -/
def rag_llm_astream : List RagChunk → List (List Char)
  | [] => []
  | s :: rest =>
      match s.answer with
      | some s_content =>
          (if containsTok stopToken s_content then pyReplaceDel stopToken s_content
           else s_content) :: rag_llm_astream rest
      | none => rag_llm_astream rest

/-- The observable operations a turn can perform, in the order `ChatBot.astream`
and the consumed generator perform them. `append_human` is the effect of
`MessagePart.add_human_message`. -/
inductive TurnEffect where
  | vector_inspect
  | trace_history
  | gate_search
  | enter_hook
  | chain_generation
  | exit_hook
  | append_human
deriving DecidableEq, Repr

/-- Effect trace of consuming the generator returned by `rag_astream`: the
history-wrapped chain fires the `on_start` listener (`_aenter_chat_chain`),
streams the generating chain, then fires the `on_end` listener
(`_aexit_chat_chain`). -/
def rag_astream_effects : List TurnEffect :=
  [.enter_hook, .chain_generation, .exit_hook]

/-- Effect trace of consuming the generator returned by `chat_astream`: same
listener/stream shape as the grounded path. -/
def chat_astream_effects : List TurnEffect :=
  [.enter_hook, .chain_generation, .exit_hook]

/-- Effect trace of `ChatBot.astream` (a full turn): `vector_store.inspect`,
`_trace_history_chain`, the retrieval gate (`aavailable_vectors`), then the
grounded or direct stream depending on the gate's result. -/
def astream_effects (rag_chain : Bool) : List TurnEffect :=
  [.vector_inspect, .trace_history, .gate_search]
    ++ (if rag_chain then rag_astream_effects else chat_astream_effects)

/-- The `configurable` dict handed to `ChatBotBuilder.MessagePart`. -/
structure Configurable where
  session_id : String
deriving DecidableEq, Repr

/-- The `RunnableConfig`-shaped dict returned by
`MessagePart.runnable_config`: `{'configurable': configurable}`. -/
structure RunnableConfigD where
  configurable : Configurable
deriving DecidableEq, Repr

/-- State of `ChatBotBuilder.MessagePart`: the validated `configurable` and the
session-bound message history. -/
structure MessagePart where
  configurable : Configurable
  message_history : MongoMessageHistory
deriving DecidableEq, Repr

/-- Constructor `ChatBotBuilder.MessagePart.__init__`: raise
`ValueError('Session ID Required for History')` when
`configurable['session_id']` is falsy (the empty string); otherwise bind the
session identifier into the message history. The history (and hence the
store) is only constructed on the success branch — the check precedes any
store access. -/
def MessagePart.init (store : MessageStore) (configurable : Configurable) :
    Except String MessagePart :=
  if configurable.session_id = "" then
    .error "Session ID Required for History"
  else
    .ok { configurable := configurable
          message_history := ⟨store, configurable.session_id⟩ }

/-- Property `MessagePart.runnable_config`. -/
def MessagePart.runnable_config (p : MessagePart) : RunnableConfigD :=
  ⟨p.configurable⟩

/-- The documents `MessageStore.insertDoc` produces for a message list
inserted starting at clock `clock` for session `sid`. -/
def stampFrom (sid : String) (clock : Nat) : List LCMessage → List StoredMessage
  | [] => []
  | m :: rest => ⟨m.type, m.content, sid, clock⟩ :: stampFrom sid (clock + 1) rest

/-! ### Helper lemmas about the store model -/

theorem foldl_insertDoc (sid : String) (msgs : List LCMessage) (st : MessageStore) :
    msgs.foldl (fun st m => st.insertDoc sid m) st
      = ⟨st.docs ++ stampFrom sid st.clock msgs, st.clock + msgs.length⟩ := by
  induction msgs generalizing st with
  | nil => simp [stampFrom]
  | cons m rest ih =>
      rw [List.foldl_cons, ih]
      refine congrArg₂ MessageStore.mk ?_ ?_
      · simp [MessageStore.insertDoc, stampFrom, List.append_assoc]
      · simp only [MessageStore.insertDoc, List.length_cons]
        omega

theorem add_messages_docs (h : MongoMessageHistory) (msgs : List LCMessage) :
    (h.add_messages msgs).store.docs
        = h.store.docs ++ stampFrom h.session_id h.store.clock msgs
      ∧ (h.add_messages msgs).store.clock = h.store.clock + msgs.length
      ∧ (h.add_messages msgs).session_id = h.session_id := by
  simp [MongoMessageHistory.add_messages, foldl_insertDoc]

theorem stampFrom_filter_sid (sid : String) (clock : Nat) (msgs : List LCMessage) :
    (stampFrom sid clock msgs).filter (fun d => d.conversation_id == sid)
      = stampFrom sid clock msgs := by
  induction msgs generalizing clock with
  | nil => simp [stampFrom]
  | cons m rest ih => simp [stampFrom, ih]

theorem stampFrom_map_proj (sid : String) (clock : Nat) (msgs : List LCMessage) :
    (stampFrom sid clock msgs).map (fun d => (⟨d.type, d.content⟩ : LCMessage))
      = msgs := by
  induction msgs generalizing clock with
  | nil => simp [stampFrom]
  | cons m rest ih => simp [stampFrom, ih]

theorem messages_add_messages (h : MongoMessageHistory) (msgs : List LCMessage) :
    (h.add_messages msgs).messages = h.messages ++ msgs := by
  obtain ⟨hdocs, _, hsid⟩ := add_messages_docs h msgs
  simp only [MongoMessageHistory.messages, hdocs, hsid, List.filter_append,
    List.map_append, stampFrom_filter_sid, stampFrom_map_proj]

theorem countSystemFor_append (docs extra : List StoredMessage) (sid : String) :
    countSystemFor (docs ++ extra) sid
      = countSystemFor docs sid + countSystemFor extra sid := by
  simp [countSystemFor, List.filter_append]

theorem countSystemFor_eq_zero (docs : List StoredMessage) (sid : String) :
    countSystemFor docs sid = 0
      ↔ ∀ d ∈ docs, ¬(d.type == "system" && d.conversation_id == sid) = true := by
  simp [countSystemFor, List.length_eq_zero, List.filter_eq_nil_iff]

theorem collectionFindSystem_none_of_fresh (docs : List StoredMessage)
    (content sid : String) (hfresh : countSystemFor docs sid = 0) :
    collectionFindSystem docs content sid = none := by
  rw [collectionFindSystem, List.find?_eq_none]
  intro d hd hmatch
  exact (countSystemFor_eq_zero docs sid).1 hfresh d hd (by
    simp only [Bool.and_eq_true, beq_iff_eq] at hmatch ⊢
    exact ⟨hmatch.1.1, hmatch.2⟩)

theorem aenter_chat_chain_docs_of_none (p : String) (h : MongoMessageHistory)
    (hnone : collectionFindSystem h.store.docs p h.session_id = none) :
    (aenter_chat_chain p h).store.docs
        = h.store.docs ++ [⟨"system", p, h.session_id, h.store.clock⟩]
      ∧ (aenter_chat_chain p h).session_id = h.session_id := by
  rw [aenter_chat_chain, hnone]
  obtain ⟨hdocs, _, hsid⟩ :=
    add_messages_docs h [SystemMessage p]
  exact ⟨by simpa [stampFrom, SystemMessage] using hdocs, hsid⟩

theorem collectionFindSystem_append_self (docs : List StoredMessage)
    (p sid : String) (t : Nat) :
    (collectionFindSystem (docs ++ [⟨"system", p, sid, t⟩]) p sid).isSome := by
  rw [collectionFindSystem, List.find?_isSome]
  exact ⟨⟨"system", p, sid, t⟩, by simp, by simp⟩

theorem aenter_chat_chain_of_found (p : String) (h : MongoMessageHistory)
    (hfound : (collectionFindSystem h.store.docs p h.session_id).isSome) :
    aenter_chat_chain p h = h := by
  rw [aenter_chat_chain]
  cases hfind : collectionFindSystem h.store.docs p h.session_id with
  | some d => rfl
  | none => rw [hfind] at hfound; simp at hfound

/-! ### Claim theorems -/

/-- C1: the on-enter hook appends a system message only when no system
message with the configured preprompt content already exists for the session
(so a found match leaves the history untouched); running it twice is the same
as running it once (idempotence, hence at most one system message from two
`run_turn` calls with the same preprompt); and from a session with no system
message, exactly one system message exists for the session afterwards. -/
theorem C1_system_message_seeding_idempotent (p : String)
    (h : MongoMessageHistory)
    (hfresh : countSystemFor h.store.docs h.session_id = 0) :
    (∀ h' : MongoMessageHistory,
        (collectionFindSystem h'.store.docs p h'.session_id).isSome →
          aenter_chat_chain p h' = h')
    ∧ (∀ h' : MongoMessageHistory,
        aenter_chat_chain p (aenter_chat_chain p h') = aenter_chat_chain p h')
    ∧ countSystemFor (aenter_chat_chain p h).store.docs h.session_id = 1 := by
  refine ⟨aenter_chat_chain_of_found p, ?_, ?_⟩
  · intro h'
    cases hfind : collectionFindSystem h'.store.docs p h'.session_id with
    | some d =>
        have hid := aenter_chat_chain_of_found p h' (by rw [hfind]; rfl)
        rw [hid, hid]
    | none =>
        obtain ⟨hdocs, hsid⟩ := aenter_chat_chain_docs_of_none p h' hfind
        refine aenter_chat_chain_of_found p _ ?_
        rw [hdocs, hsid]
        exact collectionFindSystem_append_self _ p h'.session_id _
  · have hnone := collectionFindSystem_none_of_fresh h.store.docs p h.session_id hfresh
    obtain ⟨hdocs, _⟩ := aenter_chat_chain_docs_of_none p h hnone
    rw [hdocs, countSystemFor_append, hfresh]
    simp [countSystemFor]

/-- Witness for C1 at a concrete fresh session. -/
theorem C1_system_message_seeding_idempotent_witness :
    countSystemFor ((⟨⟨[], 0⟩, "s1"⟩ : MongoMessageHistory).store.docs) "s1" = 0
    ∧ countSystemFor
        ((aenter_chat_chain "hello" (⟨⟨[], 0⟩, "s1"⟩ : MongoMessageHistory)).store.docs)
        "s1" = 1 :=
  ⟨by decide,
   (C1_system_message_seeding_idempotent "hello" ⟨⟨[], 0⟩, "s1"⟩ (by decide)).2.2⟩

/-- C2 counterexample: when the similarity search fails with
`BackendUnavailable`, `astream`'s chain selection propagates the error — the
caller does not fall back to the ungrounded direct-chat chain, so the turn
fails rather than failing open. -/
theorem C2_fail_open_counterexample :
    astream_select_chain (Except.error BackendErr.backendUnavailable)
        = Except.error BackendErr.backendUnavailable
    ∧ astream_select_chain (Except.error BackendErr.backendUnavailable)
        ≠ Except.ok Chain.direct :=
  ⟨rfl, fun hcontra => Except.noConfusion hcontra⟩

/-- C2 (amended): the Retrieval Gate never raises when the similarity search
returns a result list — in particular zero results yield `false` — but when
the search backend fails with `BackendUnavailable` the error propagates
through `astream`'s chain selection: the turn fails instead of falling back
to the direct-chat chain. -/
theorem C2_gate_error_propagates (docs : List VectorDoc) (e : BackendErr) :
    (∃ b, aavailable_vectors (Except.ok docs) = Except.ok b
        ∧ (b = true ↔ 0 < docs.length))
    ∧ aavailable_vectors (Except.ok ([] : List VectorDoc)) = Except.ok false
    ∧ astream_select_chain (Except.error e) = Except.error e
    ∧ astream_select_chain (Except.error e) ≠ Except.ok Chain.direct := by
  refine ⟨⟨decide (0 < docs.length), rfl, by simp⟩, rfl, rfl, ?_⟩
  intro hcontra
  exact Except.noConfusion hcontra

/-- C3: the Retrieval Gate returns `true` iff the similarity search returned
a candidate count greater than zero, and on zero candidates `astream` builds
the direct (ungrounded) chain, never the grounded one. -/
theorem C3_gate_iff_count_positive (docs : List VectorDoc) :
    (aavailable_vectors (Except.ok docs) = Except.ok true ↔ 0 < docs.length)
    ∧ (docs.length = 0 →
        astream_select_chain (Except.ok docs) = Except.ok Chain.direct
        ∧ astream_select_chain (Except.ok docs) ≠ Except.ok Chain.grounded) := by
  constructor
  · simp [aavailable_vectors]
  · intro hlen
    simp [astream_select_chain, aavailable_vectors, hlen]

/-- Witness for C3 at the concrete zero-candidate search result. -/
theorem C3_gate_iff_count_positive_witness :
    astream_select_chain (Except.ok ([] : List VectorDoc)) = Except.ok Chain.direct
    ∧ astream_select_chain (Except.ok ([] : List VectorDoc)) ≠ Except.ok Chain.grounded :=
  (C3_gate_iff_count_positive []).2 rfl

theorem pyReplaceAux_of_not_contains (tok : List Char) (fuel : Nat)
    (s : List Char) (hnc : containsTok tok s = false) :
    pyReplaceAux tok fuel s = s := by
  induction fuel generalizing s with
  | zero => cases s <;> rfl
  | succ fuel ih =>
      cases s with
      | nil => rfl
      | cons c rest =>
          rw [containsTok, Bool.or_eq_false_iff] at hnc
          rw [pyReplaceAux, if_neg (by simp [hnc.1]), ih rest hnc.2]

theorem pyReplaceDel_of_not_contains (tok s : List Char)
    (hnc : containsTok tok s = false) : pyReplaceDel tok s = s :=
  pyReplaceAux_of_not_contains tok s.length s hnc

theorem chat_stream_step_eq (s : List Char) :
    chat_stream_step s = pyReplaceDel stopToken s := by
  rw [chat_stream_step]
  split
  · rfl
  · next hnc =>
      simp only [Bool.not_eq_true] at hnc
      exact (pyReplaceDel_of_not_contains _ _ hnc).symm

theorem chat_llm_astream_eq_map (frags : List (List Char)) :
    chat_llm_astream frags = frags.map (pyReplaceDel stopToken) := by
  induction frags with
  | nil => rfl
  | cons s rest ih => rw [chat_llm_astream, ih, List.map_cons, chat_stream_step_eq]

theorem rag_llm_astream_eq (chunks : List RagChunk) :
    rag_llm_astream chunks
      = (chunks.filterMap (fun s => s.answer)).map (pyReplaceDel stopToken) := by
  induction chunks with
  | nil => rfl
  | cons s rest ih =>
      obtain ⟨ans⟩ := s
      cases ans with
      | none => simpa [rag_llm_astream, List.filterMap_cons] using ih
      | some a =>
          have hstep : (if containsTok stopToken a then pyReplaceDel stopToken a
              else a) = pyReplaceDel stopToken a := chat_stream_step_eq a
          simp only [rag_llm_astream, List.filterMap_cons, List.map_cons, ih, hstep]

theorem rag_llm_astream_length (chunks : List RagChunk) :
    (rag_llm_astream chunks).length
      = (chunks.filter (fun s => s.answer.isSome)).length := by
  induction chunks with
  | nil => rfl
  | cons s rest ih =>
      obtain ⟨ans⟩ := s
      cases ans <;> simp [rag_llm_astream, List.filter_cons, ih]

/-- C4 counterexample: a stop-token occurrence split across two fragments is
not removed. On the fragment sequence `["<|eot", "_id|>"]` — whose
concatenation contains the stop token — the filter's concatenated output is
the stop token itself, while the concatenation with every stop-token
occurrence removed is empty. -/
theorem C4_stop_token_boundary_counterexample :
    (chat_llm_astream [['<', '|', 'e', 'o', 't'], ['_', 'i', 'd', '|', '>']]).flatten
      ≠ pyReplaceDel stopToken
          (([['<', '|', 'e', 'o', 't'], ['_', 'i', 'd', '|', '>']] : List (List Char)).flatten)
    ∧ containsTok stopToken
        (([['<', '|', 'e', 'o', 't'], ['_', 'i', 'd', '|', '>']] : List (List Char)).flatten)
        = true := by
  constructor
  · decide
  · decide

/-- C4 (amended): the Streaming Filter removes the stop token fragment-wise:
its output is exactly the input sequence with each fragment independently
stripped of its leftmost non-overlapping stop-token occurrences (so fragments
are neither merged nor reordered and per-index order is preserved), and for
content contained in a single fragment the concatenated output equals the
input with every stop-token occurrence removed; occurrences spanning a
fragment boundary are not removed (see the counterexample). -/
theorem C4_streaming_filter_per_fragment (frags : List (List Char)) :
    chat_llm_astream frags = frags.map (pyReplaceDel stopToken)
    ∧ (chat_llm_astream frags).length = frags.length
    ∧ (∀ s : List Char, (chat_llm_astream [s]).flatten = pyReplaceDel stopToken s) := by
  refine ⟨chat_llm_astream_eq_map frags, ?_, ?_⟩
  · rw [chat_llm_astream_eq_map frags, List.length_map]
  · intro s
    simp [chat_llm_astream_eq_map]

/-- C10: in the grounded chain a streamed chunk is forwarded iff it carries an
`'answer'` field (chunks without one are elided), and the direct chain
forwards every chunk's content (stop-token-stripped in both cases). -/
theorem C10_answer_field_gating (chunks : List RagChunk) (frags : List (List Char)) :
    rag_llm_astream chunks
        = (chunks.filterMap (fun s => s.answer)).map (pyReplaceDel stopToken)
    ∧ (rag_llm_astream chunks).length
        = (chunks.filter (fun s => s.answer.isSome)).length
    ∧ chat_llm_astream frags = frags.map (pyReplaceDel stopToken) :=
  ⟨rag_llm_astream_eq chunks, rag_llm_astream_length chunks,
   chat_llm_astream_eq_map frags⟩

/-- C5 counterexample: a full turn (`astream` plus consuming the generator it
returns) performs the generation call while performing no human-message
append at all — in particular no durable human append precedes generation,
and a history failure on that append cannot abort the turn because the append
never happens. -/
theorem C5_no_human_append_counterexample :
    TurnEffect.chain_generation ∈ astream_effects true
    ∧ TurnEffect.append_human ∉ astream_effects true
    ∧ TurnEffect.append_human ∉ astream_effects false := by decide

/-- C5 (amended): on either gate outcome the turn executes vector inspection,
the history trace, the retrieval gate, then the history-wrapped chain with
its enter/exit hooks; the turn flow itself never invokes
`add_human_message` — persisting the human message is left to the
history-wrapping chain machinery, not performed before generation. -/
theorem C5_turn_effect_order (rag_chain : Bool) :
    astream_effects rag_chain
        = [TurnEffect.vector_inspect, TurnEffect.trace_history,
           TurnEffect.gate_search, TurnEffect.enter_hook,
           TurnEffect.chain_generation, TurnEffect.exit_hook]
    ∧ TurnEffect.append_human ∉ astream_effects rag_chain := by
  cases rag_chain <;> exact ⟨rfl, by decide⟩

theorem foldl_latestStep_some (l : List StoredMessage) (b : StoredMessage) :
    ∃ m, l.foldl latestStep (some b) = some m
      ∧ (m = b ∨ m ∈ l)
      ∧ b.createdAt ≤ m.createdAt
      ∧ ∀ d ∈ l, d.createdAt ≤ m.createdAt := by
  induction l generalizing b with
  | nil => exact ⟨b, rfl, Or.inl rfl, Nat.le_refl _, by simp⟩
  | cons d l ih =>
      have hstep : latestStep (some b) d
          = if b.createdAt < d.createdAt then some d else some b := rfl
      rw [List.foldl_cons, hstep]
      by_cases hlt : b.createdAt < d.createdAt
      · rw [if_pos hlt]
        obtain ⟨m, hm, hmem, hle, hall⟩ := ih d
        refine ⟨m, hm, ?_, Nat.le_of_lt (Nat.lt_of_lt_of_le hlt hle), ?_⟩
        · rcases hmem with hmb | hml
          · exact Or.inr (hmb ▸ List.mem_cons_self d l)
          · exact Or.inr (List.mem_cons_of_mem d hml)
        · intro d' hd'
          rcases List.mem_cons.mp hd' with hd'' | hd''
          · exact hd'' ▸ hle
          · exact hall d' hd''
      · rw [if_neg hlt]
        obtain ⟨m, hm, hmem, hle, hall⟩ := ih b
        refine ⟨m, hm, ?_, hle, ?_⟩
        · rcases hmem with hmb | hml
          · exact Or.inl hmb
          · exact Or.inr (List.mem_cons_of_mem d hml)
        · intro d' hd'
          rcases List.mem_cons.mp hd' with hd'' | hd''
          · exact hd'' ▸ Nat.le_trans (Nat.le_of_not_lt hlt) hle
          · exact hall d' hd''

theorem findLatestAssistant_spec (docs : List StoredMessage) (sid : String)
    (hex : ∃ d ∈ docs, assistantFilter sid d = true) :
    ∃ m, findLatestAssistant docs sid = some m
      ∧ m ∈ docs ∧ assistantFilter sid m = true
      ∧ ∀ d ∈ docs, assistantFilter sid d = true → d.createdAt ≤ m.createdAt := by
  obtain ⟨d0, hd0, hf0⟩ := hex
  rw [findLatestAssistant]
  cases hfil : docs.filter (assistantFilter sid) with
  | nil =>
      exfalso
      have hmem0 : d0 ∈ docs.filter (assistantFilter sid) :=
        List.mem_filter.mpr ⟨hd0, hf0⟩
      rw [hfil] at hmem0
      exact List.not_mem_nil d0 hmem0
  | cons f rest =>
      have h0 : latestStep none f = some f := rfl
      rw [List.foldl_cons, h0]
      obtain ⟨m, hm, hmem, hle, hall⟩ := foldl_latestStep_some rest f
      have hmfil : m ∈ docs.filter (assistantFilter sid) := by
        rw [hfil]
        rcases hmem with hmb | hml
        · exact hmb ▸ List.mem_cons_self f rest
        · exact List.mem_cons_of_mem f hml
      have hmdocs := List.mem_filter.mp hmfil
      refine ⟨m, hm, hmdocs.1, hmdocs.2, ?_⟩
      intro d hd hfd
      have hdfil : d ∈ docs.filter (assistantFilter sid) :=
        List.mem_filter.mpr ⟨hd, hfd⟩
      rw [hfil] at hdfil
      rcases List.mem_cons.mp hdfil with hdf | hdr
      · exact hdf ▸ hle
      · exact hall d hdr

/-- C6: when the session holds at least one assistant-role message, the
on-exit hook locates the most recent one (greatest `createdAt`, first by
insertion on ties), summarizes its content, and appends the summary as a
running-summary artifact; and for any session state the hook only ever
appends (prior documents stay a prefix) and appends at most one document,
never replacing or mutating a prior turn message. -/
theorem C6_exit_hook_summarizes_latest (summarizer : String → String)
    (h : MongoMessageHistory)
    (hex : ∃ d ∈ h.store.docs, assistantFilter h.session_id d = true) :
    ∃ m, findLatestAssistant h.store.docs h.session_id = some m
      ∧ m ∈ h.store.docs ∧ assistantFilter h.session_id m = true
      ∧ (∀ d ∈ h.store.docs, assistantFilter h.session_id d = true →
            d.createdAt ≤ m.createdAt)
      ∧ (aexit_chat_chain summarizer h).store.docs
          = h.store.docs
            ++ [⟨"summary", summarizer m.content, h.session_id, h.store.clock⟩]
      ∧ (∀ h' : MongoMessageHistory,
            h'.store.docs <+: (aexit_chat_chain summarizer h').store.docs
            ∧ (aexit_chat_chain summarizer h').store.docs.length
                ≤ h'.store.docs.length + 1) := by
  obtain ⟨m, hm, hmem, hfm, hmax⟩ :=
    findLatestAssistant_spec h.store.docs h.session_id hex
  refine ⟨m, hm, hmem, hfm, hmax, ?_, ?_⟩
  · rw [aexit_chat_chain, hm]
    rfl
  · intro h'
    rw [aexit_chat_chain]
    cases findLatestAssistant h'.store.docs h'.session_id with
    | none => exact ⟨List.prefix_refl _, Nat.le_succ_of_le (Nat.le_refl _)⟩
    | some a =>
        refine ⟨⟨_, rfl⟩, ?_⟩
        simp [MessageStore.add_summary]

/-- Witness for C6 at a session holding one assistant message. -/
theorem C6_exit_hook_summarizes_latest_witness :
    (aexit_chat_chain (fun s => s)
        ⟨⟨[⟨"ai", "yo", "s1", 0⟩], 1⟩, "s1"⟩).store.docs
      = [⟨"ai", "yo", "s1", 0⟩, ⟨"summary", "yo", "s1", 1⟩] := by
  obtain ⟨m, hm, _, _, _, hdocs, _⟩ :=
    C6_exit_hook_summarizes_latest (fun s => s)
      ⟨⟨[⟨"ai", "yo", "s1", 0⟩], 1⟩, "s1"⟩
      ⟨⟨"ai", "yo", "s1", 0⟩, by decide, by decide⟩
  have hval : findLatestAssistant [⟨"ai", "yo", "s1", 0⟩] "s1"
      = some ⟨"ai", "yo", "s1", 0⟩ := by decide
  have hmval : m = ⟨"ai", "yo", "s1", 0⟩ :=
    Option.some_injective _ (hm.symm.trans hval)
  rw [hdocs, hmval]
  rfl

/-- C7 counterexample: `bulk_add` returns the Boolean `True`, not the
persisted Turn Message(s); and `system` returns the message exactly as
constructed before insertion — the store-assigned `createdAt` (0 here) exists
only on the persisted document, not on the returned value, refuting "each
returns the persisted Turn Message with a store-assigned timestamp". -/
theorem C7_return_value_counterexample :
    (MongoMessageHistory.bulk_add ⟨⟨[], 0⟩, "s1"⟩ [HumanMessage "hi"]).2 = true
    ∧ (MongoMessageHistory.system ⟨⟨[], 0⟩, "s1"⟩ "hello").2 = SystemMessage "hello"
    ∧ (MongoMessageHistory.system ⟨⟨[], 0⟩, "s1"⟩ "hello").1.store.docs
        = [⟨"system", "hello", "s1", 0⟩] := by
  refine ⟨rfl, rfl, by decide⟩

/-- C7 (amended): each append operation is append-only — the store afterwards
is the prior documents with exactly the new clock-stamped documents appended —
but `system`/`human`/`ai` return the message as constructed (role and content
only; the store-assigned timestamp is not part of the return value), and
`bulk_add` returns `true` rather than the persisted messages. -/
theorem C7_append_only_returns (h : MongoMessageHistory)
    (prompt content : String) (msgs : List LCMessage) :
    ((h.system prompt).1.store.docs
        = h.store.docs ++ [⟨"system", prompt, h.session_id, h.store.clock⟩]
      ∧ (h.system prompt).2 = SystemMessage prompt)
    ∧ ((h.human content).1.store.docs
        = h.store.docs ++ [⟨"human", content, h.session_id, h.store.clock⟩]
      ∧ (h.human content).2 = HumanMessage content)
    ∧ ((h.ai content).1.store.docs
        = h.store.docs ++ [⟨"ai", content, h.session_id, h.store.clock⟩]
      ∧ (h.ai content).2 = AIMessage content)
    ∧ ((h.bulk_add msgs).1.store.docs
        = h.store.docs ++ stampFrom h.session_id h.store.clock msgs
      ∧ (h.bulk_add msgs).2 = true) := by
  refine ⟨⟨?_, rfl⟩, ⟨?_, rfl⟩, ⟨?_, rfl⟩, ⟨?_, rfl⟩⟩
  · simpa [MongoMessageHistory.system, stampFrom, SystemMessage] using
      (add_messages_docs h [SystemMessage prompt]).1
  · simpa [MongoMessageHistory.human, stampFrom, HumanMessage] using
      (add_messages_docs h [HumanMessage content]).1
  · simpa [MongoMessageHistory.ai, stampFrom, AIMessage] using
      (add_messages_docs h [AIMessage content]).1
  · exact (add_messages_docs h msgs).1

/-- C8: `has_no_messages` is true iff the session's history is empty, reading
after appending returns prior messages followed by the appended ones in
append order, and in particular appending N messages to an empty session
history and reading back returns exactly those N messages. -/
theorem C8_roundtrip (h : MongoMessageHistory) (msgs : List LCMessage)
    (hempty : h.has_no_messages = true) :
    (∀ h' : MongoMessageHistory, h'.has_no_messages = true ↔ h'.messages = [])
    ∧ (∀ (h' : MongoMessageHistory) (msgs' : List LCMessage),
        (h'.add_messages msgs').messages = h'.messages ++ msgs')
    ∧ (h.add_messages msgs).messages = msgs := by
  refine ⟨?_, fun h' msgs' => messages_add_messages h' msgs', ?_⟩
  · intro h'
    simp [MongoMessageHistory.has_no_messages, List.isEmpty_iff]
  · rw [messages_add_messages]
    have hnil : h.messages = [] := by
      simpa [MongoMessageHistory.has_no_messages, List.isEmpty_iff] using hempty
    rw [hnil, List.nil_append]

/-- Witness for C8 at a fresh session and two concrete messages. -/
theorem C8_roundtrip_witness :
    (⟨⟨[], 0⟩, "s1"⟩ : MongoMessageHistory).has_no_messages = true
    ∧ ((⟨⟨[], 0⟩, "s1"⟩ : MongoMessageHistory).add_messages
          [HumanMessage "hi", AIMessage "yo"]).messages
        = [HumanMessage "hi", AIMessage "yo"] :=
  ⟨by decide,
   (C8_roundtrip ⟨⟨[], 0⟩, "s1"⟩ [HumanMessage "hi", AIMessage "yo"]
      (by decide)).2.2⟩

/-- C9: constructing the message part with a falsy (empty) session identifier
raises `ValueError('Session ID Required for History')` — on that branch no
message history (hence no store binding) is constructed — and any non-empty
session identifier yields a part whose runnable configuration and history are
bound to exactly that identifier. -/
theorem C9_session_id_required (st : MessageStore) (c : Configurable) :
    (c.session_id = "" →
        MessagePart.init st c = Except.error "Session ID Required for History")
    ∧ (c.session_id ≠ "" →
        ∃ p, MessagePart.init st c = Except.ok p
          ∧ p.runnable_config = ⟨c⟩
          ∧ p.message_history.session_id = c.session_id
          ∧ p.message_history.store = st) := by
  constructor
  · intro hsid
    simp [MessagePart.init, hsid]
  · intro hsid
    refine ⟨⟨c, ⟨st, c.session_id⟩⟩, ?_, rfl, rfl, rfl⟩
    simp [MessagePart.init, hsid]

/-- Witness for C9 at the empty and a non-empty session identifier. -/
theorem C9_session_id_required_witness :
    MessagePart.init ⟨[], 0⟩ ⟨""⟩ = Except.error "Session ID Required for History"
    ∧ ∃ p, MessagePart.init ⟨[], 0⟩ ⟨"s1"⟩ = Except.ok p
        ∧ MessagePart.runnable_config p = ⟨⟨"s1"⟩⟩ :=
  ⟨(C9_session_id_required ⟨[], 0⟩ ⟨""⟩).1 rfl, by
    obtain ⟨p, h1, h2, _⟩ :=
      (C9_session_id_required ⟨[], 0⟩ ⟨"s1"⟩).2 (by decide)
    exact ⟨p, h1, h2⟩⟩


